import Mathlib

/-!
Verification of the Gantt-chart builder (`gantt.py`) and its interactive
shell (`streamlit_app.py`) against their natural-language specification.

The builder is embedded shallowly: a parsed spreadsheet is a `List Row`
(dates already parsed, as `pd.to_datetime` guarantees on success), the
derived columns are functions of the row list, and `createGantt` produces
either a `GanttError` (the Python exception that would be raised) or the
figure together with its rendered bytes, following the source line by line.
-/

namespace Gantt

/- The Std `Rat` operations are `@[irreducible]`, which only blocks
elaborator-side evaluation (the kernel ignores reducibility); restoring
the default lets `decide` evaluate concrete charts. -/
set_option allowUnsafeReducibility true in
attribute [semireducible] Rat.mul Rat.add Rat.sub Rat.inv

set_option maxRecDepth 4000

/-! ### Calendar arithmetic

`pandas` timestamps are calendar dates; day subtraction (`.dt.days`) and
`date_range(freq="MS")` depend only on the proleptic Gregorian day number,
which we compute explicitly. -/

/-- Gregorian leap-year test. -/
def isLeap (y : Nat) : Bool :=
  (y % 4 == 0 && y % 100 != 0) || (y % 400 == 0)

/-- Length of month `m` (1–12) in a year with leap flag `leap`. -/
def monthLen (leap : Bool) : Nat → Nat
  | 1 => 31
  | 2 => if leap then 29 else 28
  | 3 => 31
  | 4 => 30
  | 5 => 31
  | 6 => 30
  | 7 => 31
  | 8 => 31
  | 9 => 30
  | 10 => 31
  | 11 => 30
  | 12 => 31
  | _ => 0

/-- Days strictly before month `m` within one year. -/
def daysBefore (leap : Bool) : Nat → Nat
  | 0 => 0
  | m + 1 => daysBefore leap m + monthLen leap m

/-- Days strictly before year `y` (years counted from year 0). -/
def daysBeforeYear (y : Nat) : Nat :=
  365 * y + (y + 3) / 4 + (y + 399) / 400 - (y + 99) / 100

/-- A calendar date. -/
structure Date where
  year : Nat
  month : Nat
  day : Nat
  deriving DecidableEq, Repr

/-- Proleptic Gregorian day number of a date (year 0, Jan 1 ↦ 0). -/
def ord (d : Date) : Nat :=
  daysBeforeYear d.year + daysBefore (isLeap d.year) d.month + (d.day - 1)

/-- A date that exists on the calendar. -/
def ValidDate (d : Date) : Prop :=
  1 ≤ d.month ∧ d.month ≤ 12 ∧ 1 ≤ d.day ∧ d.day ≤ monthLen (isLeap d.year) d.month

instance (d : Date) : Decidable (ValidDate d) := by
  unfold ValidDate; infer_instance

/-! ### The parsed table -/

/-- One spreadsheet row after `pd.read_excel` + `pd.to_datetime`.
Columns that the source passes through `dropna()` are optional. -/
structure Row where
  task : String
  stage : Option String
  startDate : Date
  endDate : Date
  completionFrac : Rat
  title : Option String
  stageColor : Option String
  legendOrder : Option String
  deriving DecidableEq, Repr

/-- Deduplication pass keeping first occurrences, with the set of
already-seen values as accumulator. -/
def uniqueFirstAux {α : Type} [DecidableEq α] (seen : List α) : List α → List α
  | [] => []
  | x :: xs =>
    if x ∈ seen then uniqueFirstAux seen xs
    else x :: uniqueFirstAux (x :: seen) xs

/-- `Series.unique()`: distinct values in order of first occurrence. -/
def uniqueFirst {α : Type} [DecidableEq α] (l : List α) : List α :=
  uniqueFirstAux [] l

instance {ε α : Type} [DecidableEq ε] [DecidableEq α] : DecidableEq (Except ε α) :=
  fun a b =>
    match a, b with
    | .ok x, .ok y =>
      if h : x = y then .isTrue (by rw [h])
      else .isFalse (fun hc => h (by cases hc; rfl))
    | .error e, .error f =>
      if h : e = f then .isTrue (by rw [h])
      else .isFalse (fun hc => h (by cases hc; rfl))
    | .ok _, .error _ => .isFalse (fun hc => by cases hc)
    | .error _, .ok _ => .isFalse (fun hc => by cases hc)

/-- `data["StartDate"].min()` (gantt.py line 27). -/
def minStart (rows : List Row) : Date :=
  match rows.map (·.startDate) with
  | [] => ⟨0, 1, 1⟩
  | d :: ds => ds.foldl (fun a b => if ord b < ord a then b else a) d

/-- `data["EndDate"].max()` (gantt.py line 56). -/
def maxEnd (rows : List Row) : Date :=
  match rows.map (·.endDate) with
  | [] => ⟨0, 1, 1⟩
  | d :: ds => ds.foldl (fun a b => if ord a < ord b then b else a) d

/-- `DaysToStart` (gantt.py line 27). -/
def daysToStart (rows : List Row) (r : Row) : Int :=
  (ord r.startDate : Int) - (ord (minStart rows) : Int)

/-- `DaysToEnd` (gantt.py line 30). -/
def daysToEnd (rows : List Row) (r : Row) : Int :=
  (ord r.endDate : Int) - (ord (minStart rows) : Int)

/-- `Duration` (gantt.py line 33). -/
def duration (r : Row) : Int :=
  (ord r.endDate : Int) - (ord r.startDate : Int)

/-- `CompletionDays = CompletionFrac * Duration` (gantt.py line 36). -/
def completionDays (r : Row) : Rat :=
  r.completionFrac * (duration r : Rat)

/-- `data["Stage"].dropna().unique()`. -/
def stageCol (rows : List Row) : List String :=
  uniqueFirst (rows.filterMap (·.stage))

/-- `data["StageColor"].dropna().unique()`. -/
def stageColorCol (rows : List Row) : List String :=
  uniqueFirst (rows.filterMap (·.stageColor))

/-- `data["LegendOrder"].dropna().unique()`. -/
def legendOrderCol (rows : List Row) : List String :=
  uniqueFirst (rows.filterMap (·.legendOrder))

/-- `data["Title"].dropna().unique()`. -/
def titleCol (rows : List Row) : List String :=
  uniqueFirst (rows.filterMap (·.title))

/-- `dict(zip(Stage.dropna().unique(), StageColor.dropna().unique()))`
(gantt.py lines 39–41): an insertion-ordered map, keys already distinct. -/
def stageColorDict (rows : List Row) : List (String × String) :=
  (stageCol rows).zip (stageColorCol rows)

/-- `dict(zip(LegendOrder.dropna().unique(), StageColor.dropna().unique()))`
(gantt.py lines 47–49). -/
def legendOrderDict (rows : List Row) : List (String × String) :=
  (legendOrderCol rows).zip (stageColorCol rows)

/-- `stage_color_dict[row["Stage"]]`: `none` models the raised `KeyError`
(a null stage is likewise never a key of the dict). -/
def lookupStage (d : List (String × String)) : Option String → Option String
  | none => none
  | some s => d.lookup s

/-! ### x-axis ticks -/

/-- Linear month index of a date. -/
def monthIdx (d : Date) : Nat := 12 * d.year + (d.month - 1)

/-- The month-start date with linear month index `k`. -/
def idxDate (k : Nat) : Date := ⟨k / 12, k % 12 + 1, 1⟩

/-- `pd.date_range(start, end, freq="MS")` (gantt.py line 59): every
month-start timestamp lying within `[s, e]`, in ascending order. The
candidate months range from `s`'s own month to `e`'s month (month starts
of earlier months precede `s`, later ones follow `e`); the timestamp
filter keeps exactly those within the closed interval. -/
def dateRangeMS (s e : Date) : List Date :=
  ((List.range (monthIdx e + 1 - monthIdx s)).map
      (fun i => idxDate (monthIdx s + i))).filter
    (fun d => decide (ord s ≤ ord d) && decide (ord d ≤ ord e))

/-- `tickvals = (x_tick_vals - x_tick_start).days` (gantt.py line 60). -/
def tickvals (rows : List Row) : List Int :=
  (dateRangeMS (minStart rows) (maxEnd rows)).map
    (fun d => (ord d : Int) - (ord (minStart rows) : Int))

/-! ### Traces and figure -/

/-- A plotly trace, restricted to the fields the source sets. -/
inductive Trace where
  | bar (x : Rat) (y : String) (base : Int) (color : String)
      (lineColor : Option String) (opacity : Option Rat) (showlegend : Bool)
  | scatterLegend (color : String) (label : String)
  deriving DecidableEq, Repr

/-- The parts of the plotly figure the claims talk about. -/
structure Figure where
  traces : List Trace
  title : String
  xTickvals : List Int
  xTicktext : Option (List String)
  height : Int
  width : Int
  deriving DecidableEq, Repr

/-- The Python exceptions `createGantt` can raise in the modelled fragment. -/
inductive GanttError where
  | indexError
  | keyError (k : Option String)
  deriving DecidableEq, Repr

def GanttError.isKeyError : GanttError → Bool
  | .keyError _ => true
  | _ => false

/-- The main task bar (gantt.py lines 72–84). -/
def mainBar (rows : List Row) (r : Row) (c : String) : Trace :=
  .bar ((duration r : Int) : Rat) r.task (daysToStart rows r + 1) c (some c) none false

/-- The completion-fraction overlay bar (gantt.py lines 87–96). -/
def overlayBar (rows : List Row) (r : Row) (c : String) : Trace :=
  .bar (completionDays r) r.task (daysToStart rows r + 1) c none (some (1/2)) false

/-- The `for index, row in data.iterrows()` loop (gantt.py lines 70–96):
two bars per row; a failed stage lookup raises `KeyError` at that row. -/
def buildTraces (rows : List Row) (scd : List (String × String)) :
    List Row → Except GanttError (List Trace)
  | [] => .ok []
  | r :: rs =>
    match lookupStage scd r.stage with
    | none => .error (.keyError r.stage)
    | some c =>
      (buildTraces rows scd rs).map
        (fun ts => mainBar rows r c :: overlayBar rows r c :: ts)

/-- The legend-marker loop (gantt.py lines 99–109). -/
def legendTraces (lod : List (String × String)) : List Trace :=
  lod.map (fun p => .scatterLegend p.2 p.1)

def maxInt : List Int → Int
  | [] => 0
  | x :: xs => xs.foldl max x

/-- `data["DaysToEnd"].max()` (gantt.py line 67). -/
def maxDaysToEnd (rows : List Row) : Int :=
  maxInt (rows.map (daysToEnd rows))

structure GanttOutput where
  png : List Nat
  figure : Figure
  deriving DecidableEq, Repr

/-- Modelled from the spec: §4.1 step 12 rasterizes the finished chart to
PNG bytes via the external plotly/kaleido engine, which is not part of this
repository; the byte content is opaque to every claim (only whether bytes
are produced matters), so it is abstracted to a fixed PNG signature. -/
def renderPng (_ : Figure) : List Nat :=
  [137, 80, 78, 71, 13, 10, 26, 10]

/-- `createGantt` (gantt.py lines 8–153), in source order: derived columns,
dicts, title extraction (line 52, the first fallible step in the modelled
fragment), ticks, the bar loop, legend markers, layout, rasterization. -/
def createGantt (rows : List Row) : Except GanttError GanttOutput :=
  let scd := stageColorDict rows
  let lod := legendOrderDict rows
  match titleCol rows with
  | [] => .error .indexError
  | t :: _ =>
    (buildTraces rows scd rows).map (fun barTs =>
      let fig : Figure :=
        { traces := barTs ++ legendTraces lod
          title := t
          xTickvals := tickvals rows
          xTicktext := none
          height := 50 + 20 * (rows.length : Int)
          width := 1000 + 50 * maxDaysToEnd rows }
      { png := renderPng fig, figure := fig })

/-! ### The interactive shell (streamlit_app.py) -/

/-- The Python exceptions the shell script can raise. -/
inductive PyErr where
  | nameError (n : String)
  | attributeError (a : String)
  | ganttExc (e : GanttError)
  deriving DecidableEq, Repr

/-- Just enough of Python's value model for the shell: the local
`img_bytes` holds either an in-memory bytes buffer, a figure, or a tuple of values. -/
inductive PyVal where
  | bytesBuf (bs : List Nat)
  | figVal (f : Figure)
  | tuple (a b : PyVal)
  deriving DecidableEq, Repr

/-- `v.getbuffer()`: only an in-memory bytes buffer has that attribute; on anything else
Python raises `AttributeError`. -/
def getbuffer : PyVal → Except PyErr (List Nat)
  | .bytesBuf bs => .ok bs
  | _ => .error (.attributeError "getbuffer")

/-- What the shell showed on a run that terminated normally. -/
structure ShellView where
  displayedImage : Bool
  errorShown : Bool
  downloadOffered : Bool
  deriving DecidableEq, Repr

/-- `streamlit_app.py` lines 24–43 for one script run. With no upload the
script writes the prompt but `img_bytes` is never assigned, so line 32
(`img_bytes.getbuffer()`) raises `NameError`. With an upload, line 27 binds
`img_bytes` to the full return value of `createGantt` — the tuple
`(img_bytes, GanttChart)` — and an exception from `createGantt` propagates
uncaught. -/
def shellRun (uploaded : Option (List Row)) : Except PyErr ShellView :=
  match uploaded with
  | none => .error (.nameError "img_bytes")
  | some rows =>
    match createGantt rows with
    | .error e => .error (.ganttExc e)
    | .ok out =>
      match getbuffer (PyVal.tuple (.bytesBuf out.png) (.figVal out.figure)) with
      | .error e => .error e
      | .ok buf =>
        if buf.length > 0 then
          .ok { displayedImage := true, errorShown := false, downloadOffered := true }
        else
          .ok { displayedImage := false, errorShown := true, downloadOffered := true }

/-! ### Spec-side comparison definitions -/

/-- The (Stage, StageColor) pair a row contributes, when both are present. -/
def rowPair (r : Row) : Option (String × String) :=
  match r.stage, r.stageColor with
  | some s, some c => some (s, c)
  | _, _ => none

def rowPairs (rows : List Row) : List (String × String) :=
  rows.filterMap rowPair

/-- Modelled from the spec: the first-encountered `StageColor` for a stage
(the claimed first-seen-wins mapping), for comparison with the source's
`stageColorDict`. -/
def firstSeenStageColor (rows : List Row) (s : String) : Option String :=
  (((rowPairs rows).filter (fun p => p.1 == s)).head?).map (·.2)

/-! ### Trace projections -/

def mkRow (t : String) (s c l : Option String) (sd ed : Date) (f : Rat)
    (ti : Option String) : Row :=
  { task := t, stage := s, startDate := sd, endDate := ed, completionFrac := f,
    title := ti, stageColor := c, legendOrder := l }

/-- The spec §8 demo scenario row: `2024-01-01 → 2024-01-11`, half complete. -/
def demoRow : Row :=
  mkRow "A" (some "Design") (some "#ff0000") (some "Design")
    ⟨2024, 1, 1⟩ ⟨2024, 1, 11⟩ (1/2) (some "Demo")

/-- The spec §8 demo scenario as a one-row table. -/
def demoRows : List Row := [demoRow]

/-- The figure `createGantt` builds for `demoRows`. -/
def demoOut : GanttOutput :=
  { png := [137, 80, 78, 71, 13, 10, 26, 10]
    figure :=
      { traces :=
          [ .bar 10 "A" 1 "#ff0000" (some "#ff0000") none false,
            .bar 5 "A" 1 "#ff0000" none (some (1/2)) false,
            .scatterLegend "#ff0000" "Design" ]
        title := "Demo"
        xTickvals := [0]
        xTicktext := none
        height := 70
        width := 1500 } }

/-- Stage `B` appears in rows 2 and 3 with conflicting colors red/blue; its
first-encountered color is red, yet the zip pairs `B` with `blue`. -/
def conflictRows : List Row :=
  [ mkRow "T1" (some "A") (some "red") (some "L1") ⟨2024, 1, 15⟩ ⟨2024, 3, 10⟩ 0 (some "Demo"),
    mkRow "T2" (some "B") (some "red") (some "L1") ⟨2024, 1, 15⟩ ⟨2024, 3, 10⟩ 0 none,
    mkRow "T3" (some "B") (some "blue") (some "L1") ⟨2024, 1, 15⟩ ⟨2024, 3, 10⟩ 0 none ]

/-- Consistent, injective stage coloring (for the aligned-case witness). -/
def alignedRows : List Row :=
  [ mkRow "T1" (some "A") (some "red") (some "L1") ⟨2024, 1, 1⟩ ⟨2024, 2, 1⟩ 0 (some "T"),
    mkRow "T2" (some "B") (some "blue") (some "L2") ⟨2024, 1, 1⟩ ⟨2024, 2, 1⟩ 0 none ]

/-- Two distinct `LegendOrder` values but a single distinct `StageColor`:
the legend zip truncates to one entry. -/
def legendRows : List Row :=
  [ mkRow "T1" (some "A") (some "red") (some "L1") ⟨2024, 1, 1⟩ ⟨2024, 2, 1⟩ 0 (some "T"),
    mkRow "T2" (some "A") (some "red") (some "L2") ⟨2024, 1, 1⟩ ⟨2024, 2, 1⟩ 0 none ]

/-- A row whose stage is unmapped (no `StageColor` anywhere) and a null
`Title`. -/
def noTitleUnmappedRow : Row :=
  mkRow "T1" (some "A") none none ⟨2024, 1, 1⟩ ⟨2024, 2, 1⟩ 0 none

/-- A one-row table with an unmapped stage and an entirely null `Title`
column. -/
def noTitleUnmappedRows : List Row := [noTitleUnmappedRow]

/-- A row whose stage is unmapped but with a title present. -/
def unmappedRow : Row :=
  mkRow "T1" (some "A") none none ⟨2024, 1, 1⟩ ⟨2024, 2, 1⟩ 0 (some "T")

/-- A one-row table with an unmapped stage and a title. -/
def unmappedRows : List Row := [unmappedRow]

/-- Whether a build result is a raised `KeyError` (a mapping-lookup
failure). -/
def isKeyErrorResult : Except GanttError GanttOutput → Bool
  | .error e => e.isKeyError
  | .ok _ => false

/-- A table whose `Title` column is entirely null. -/
def noTitleRows : List Row :=
  [mkRow "T1" (some "A") (some "red") (some "L1") ⟨2024, 1, 1⟩ ⟨2024, 2, 1⟩ 0 none]

def isBarTrace : Trace → Bool
  | .bar .. => true
  | _ => false

def isLegendTrace : Trace → Bool
  | .scatterLegend .. => true
  | _ => false

def traceColor : Trace → Option String
  | .bar _ _ _ c _ _ _ => some c
  | .scatterLegend c _ => some c

def traceBase : Trace → Option Int
  | .bar _ _ b _ _ _ _ => some b
  | _ => none

/-! ## Helper lemmas: deduplication -/

theorem mem_uniqueFirstAux {α : Type} [DecidableEq α] (a : α) (l : List α) :
    ∀ seen, a ∈ uniqueFirstAux seen l ↔ (a ∈ l ∧ a ∉ seen) := by
  induction l with
  | nil => intro seen; simp [uniqueFirstAux]
  | cons x xs ih =>
    intro seen
    simp only [uniqueFirstAux]
    split
    · rename_i hx
      rw [ih seen]
      constructor
      · rintro ⟨h1, h2⟩
        exact ⟨List.mem_cons_of_mem _ h1, h2⟩
      · rintro ⟨h1, h2⟩
        rcases List.mem_cons.mp h1 with h | h
        · exact absurd (h ▸ hx) h2
        · exact ⟨h, h2⟩
    · rename_i hx
      constructor
      · intro h
        rcases List.mem_cons.mp h with h | h
        · exact ⟨h ▸ List.mem_cons_self x xs, h ▸ hx⟩
        · obtain ⟨h1, h2⟩ := (ih (x :: seen)).mp h
          exact ⟨List.mem_cons_of_mem _ h1, fun hs => h2 (List.mem_cons_of_mem _ hs)⟩
      · rintro ⟨h1, h2⟩
        by_cases hax : a = x
        · exact hax ▸ List.mem_cons_self x _
        · rcases List.mem_cons.mp h1 with h | h
          · exact absurd h hax
          · exact List.mem_cons_of_mem _ ((ih (x :: seen)).mpr
              ⟨h, fun hs => (List.mem_cons.mp hs).elim hax h2⟩)

theorem mem_uniqueFirst {α : Type} [DecidableEq α] (a : α) (l : List α) :
    a ∈ uniqueFirst l ↔ a ∈ l := by
  rw [uniqueFirst, mem_uniqueFirstAux]
  simp

theorem uniqueFirst_head {α : Type} [DecidableEq α] (l : List α) :
    (uniqueFirst l).head? = l.head? := by
  cases l with
  | nil => rfl
  | cons x xs => simp [uniqueFirst, uniqueFirstAux]

theorem uniqueFirst_nil_iff {α : Type} [DecidableEq α] (l : List α) :
    uniqueFirst l = [] ↔ l = [] := by
  cases l with
  | nil => simp [uniqueFirst, uniqueFirstAux]
  | cons x xs =>
    simp only [uniqueFirst, uniqueFirstAux]
    simp

theorem uniqueFirstAux_map {α β : Type} [DecidableEq α] [DecidableEq β] (f : α → β)
    (l : List α) : ∀ seen : List α,
    (∀ a b, a ∈ l ++ seen → b ∈ l ++ seen → f a = f b → a = b) →
    uniqueFirstAux (seen.map f) (l.map f) = (uniqueFirstAux seen l).map f := by
  induction l with
  | nil => intro seen _; rfl
  | cons x xs ih =>
    intro seen hinj
    have hsub : ∀ a, a ∈ xs ++ (x :: seen) → a ∈ (x :: xs) ++ seen := by
      intro a ha
      rcases List.mem_append.mp ha with h | h
      · exact List.mem_append.mpr (Or.inl (List.mem_cons_of_mem _ h))
      · rcases List.mem_cons.mp h with h | h
        · exact h ▸ List.mem_append.mpr (Or.inl (List.mem_cons_self _ _))
        · exact List.mem_append.mpr (Or.inr h)
    have hsub' : ∀ a, a ∈ xs ++ seen → a ∈ (x :: xs) ++ seen := by
      intro a ha
      rcases List.mem_append.mp ha with h | h
      · exact List.mem_append.mpr (Or.inl (List.mem_cons_of_mem _ h))
      · exact List.mem_append.mpr (Or.inr h)
    have hmem : f x ∈ seen.map f ↔ x ∈ seen := by
      constructor
      · intro h
        rcases List.mem_map.mp h with ⟨y, hy, hfy⟩
        have hyx : y = x := hinj y x
          (List.mem_append.mpr (Or.inr hy))
          (List.mem_append.mpr (Or.inl (List.mem_cons_self _ _))) hfy
        exact hyx ▸ hy
      · exact fun h => List.mem_map_of_mem f h
    simp only [List.map_cons, uniqueFirstAux]
    by_cases hx : x ∈ seen
    · rw [if_pos (hmem.mpr hx), if_pos hx]
      exact ih seen (fun a b ha hb => hinj a b (hsub' a ha) (hsub' b hb))
    · rw [if_neg (fun h => hx (hmem.mp h)), if_neg hx, List.map_cons]
      have := ih (x :: seen) (fun a b ha hb => hinj a b (hsub a ha) (hsub b hb))
      rw [← this, List.map_cons]

theorem uniqueFirst_map {α β : Type} [DecidableEq α] [DecidableEq β] (f : α → β)
    (l : List α) (hinj : ∀ a b, a ∈ l → b ∈ l → f a = f b → a = b) :
    uniqueFirst (l.map f) = (uniqueFirst l).map f := by
  rw [uniqueFirst, uniqueFirst]
  exact uniqueFirstAux_map f l [] (by simpa using hinj)

theorem lookup_uniqueFirstAux {κ β : Type} [DecidableEq κ] [DecidableEq β] (s : κ)
    (l : List (κ × β)) : ∀ seen, (∀ p ∈ seen, p.1 ≠ s) →
    List.lookup s (uniqueFirstAux seen l) = List.lookup s l := by
  induction l with
  | nil => intro _ _; rfl
  | cons p ps ih =>
    intro seen hseen
    simp only [uniqueFirstAux]
    split
    · rename_i hp
      rw [ih seen hseen]
      have hne : ¬ s = p.1 := fun h => hseen p hp h.symm
      have hb : (s == p.1) = false := beq_eq_false_iff_ne.mpr hne
      simp [List.lookup, hb]
    · rename_i hp
      by_cases h : s = p.1
      · have hb : (s == p.1) = true := beq_iff_eq.mpr h
        simp [List.lookup, hb]
      · have hb : (s == p.1) = false := beq_eq_false_iff_ne.mpr h
        have h1 : List.lookup s (p :: uniqueFirstAux (p :: seen) ps)
            = List.lookup s (uniqueFirstAux (p :: seen) ps) := by
          simp [List.lookup, hb]
        have h2 : List.lookup s (p :: ps) = List.lookup s ps := by
          simp [List.lookup, hb]
        rw [h1, h2]
        exact ih (p :: seen) (by
          intro q hq
          rcases List.mem_cons.mp hq with hq | hq
          · exact hq ▸ fun he => h he.symm
          · exact hseen q hq)

theorem lookup_uniqueFirst {κ β : Type} [DecidableEq κ] [DecidableEq β] (s : κ)
    (l : List (κ × β)) : List.lookup s (uniqueFirst l) = List.lookup s l :=
  lookup_uniqueFirstAux s l [] (by simp)

theorem lookup_eq_head_filter {κ β : Type} [DecidableEq κ] (s : κ) :
    ∀ l : List (κ × β),
      List.lookup s l = ((l.filter (fun p => p.1 == s)).head?).map (·.2) := by
  intro l
  induction l with
  | nil => rfl
  | cons p ps ih =>
    by_cases h : p.1 = s
    · have hs : (s == p.1) = true := beq_iff_eq.mpr h.symm
      have hp : (p.1 == s) = true := beq_iff_eq.mpr h
      simp [List.lookup, List.filter_cons, hs, hp]
    · have hs : (s == p.1) = false := beq_eq_false_iff_ne.mpr (fun he => h he.symm)
      have hp : (p.1 == s) = false := beq_eq_false_iff_ne.mpr h
      simp [List.lookup, List.filter_cons, hs, hp, ih]

theorem zip_proj {α β : Type} :
    ∀ l : List (α × β), (l.map Prod.fst).zip (l.map Prod.snd) = l := by
  intro l
  induction l with
  | nil => rfl
  | cons p ps ih => cases p; simp [ih]

/-! ## Helper lemmas: minimum and maximum start/end dates -/

theorem foldlMinD_mem (ds : List Date) : ∀ d : Date,
    ds.foldl (fun a b => if ord b < ord a then b else a) d = d ∨
    ds.foldl (fun a b => if ord b < ord a then b else a) d ∈ ds := by
  induction ds with
  | nil => exact fun _ => Or.inl rfl
  | cons x xs ih =>
    intro d
    rw [List.foldl_cons]
    by_cases c : ord x < ord d
    · rw [if_pos c]
      rcases ih x with h | h
      · exact Or.inr (by rw [h]; exact List.mem_cons_self x xs)
      · exact Or.inr (List.mem_cons_of_mem _ h)
    · rw [if_neg c]
      rcases ih d with h | h
      · exact Or.inl h
      · exact Or.inr (List.mem_cons_of_mem _ h)

theorem foldlMinD_le (ds : List Date) : ∀ d : Date,
    ord (ds.foldl (fun a b => if ord b < ord a then b else a) d) ≤ ord d ∧
    ∀ x ∈ ds, ord (ds.foldl (fun a b => if ord b < ord a then b else a) d) ≤ ord x := by
  induction ds with
  | nil => exact fun d => ⟨le_refl _, by simp⟩
  | cons x xs ih =>
    intro d
    rw [List.foldl_cons]
    by_cases c : ord x < ord d
    · rw [if_pos c]
      obtain ⟨h1, h2⟩ := ih x
      refine ⟨le_trans h1 (le_of_lt c), ?_⟩
      intro y hy
      rcases List.mem_cons.mp hy with rfl | hy
      · exact h1
      · exact h2 y hy
    · rw [if_neg c]
      obtain ⟨h1, h2⟩ := ih d
      refine ⟨h1, ?_⟩
      intro y hy
      rcases List.mem_cons.mp hy with rfl | hy
      · exact le_trans h1 (not_lt.mp c)
      · exact h2 y hy

theorem foldlMaxD_mem (ds : List Date) : ∀ d : Date,
    ds.foldl (fun a b => if ord a < ord b then b else a) d = d ∨
    ds.foldl (fun a b => if ord a < ord b then b else a) d ∈ ds := by
  induction ds with
  | nil => exact fun _ => Or.inl rfl
  | cons x xs ih =>
    intro d
    rw [List.foldl_cons]
    by_cases c : ord d < ord x
    · rw [if_pos c]
      rcases ih x with h | h
      · exact Or.inr (by rw [h]; exact List.mem_cons_self x xs)
      · exact Or.inr (List.mem_cons_of_mem _ h)
    · rw [if_neg c]
      rcases ih d with h | h
      · exact Or.inl h
      · exact Or.inr (List.mem_cons_of_mem _ h)

theorem minStart_spec (rows : List Row) (hne : rows ≠ []) :
    (∃ r ∈ rows, minStart rows = r.startDate) ∧
    ∀ r ∈ rows, ord (minStart rows) ≤ ord r.startDate := by
  cases rows with
  | nil => exact absurd rfl hne
  | cons r rs =>
    have hdef : minStart (r :: rs) =
        (rs.map (·.startDate)).foldl (fun a b => if ord b < ord a then b else a)
          r.startDate := by
      simp [minStart]
    constructor
    · rcases foldlMinD_mem (rs.map (·.startDate)) r.startDate with h | h
      · exact ⟨r, List.mem_cons_self _ _, hdef.trans h⟩
      · rcases List.mem_map.mp h with ⟨q, hq, he⟩
        exact ⟨q, List.mem_cons_of_mem _ hq, hdef.trans he.symm⟩
    · intro q hq
      obtain ⟨h1, h2⟩ := foldlMinD_le (rs.map (·.startDate)) r.startDate
      rcases List.mem_cons.mp hq with rfl | hq
      · exact hdef ▸ h1
      · exact hdef ▸ h2 q.startDate (List.mem_map_of_mem _ hq)

theorem maxEnd_mem (rows : List Row) (hne : rows ≠ []) :
    ∃ r ∈ rows, maxEnd rows = r.endDate := by
  cases rows with
  | nil => exact absurd rfl hne
  | cons r rs =>
    have hdef : maxEnd (r :: rs) =
        (rs.map (·.endDate)).foldl (fun a b => if ord a < ord b then b else a)
          r.endDate := by
      simp [maxEnd]
    rcases foldlMaxD_mem (rs.map (·.endDate)) r.endDate with h | h
    · exact ⟨r, List.mem_cons_self _ _, hdef.trans h⟩
    · rcases List.mem_map.mp h with ⟨q, hq, he⟩
      exact ⟨q, List.mem_cons_of_mem _ hq, hdef.trans he.symm⟩

/-! ## Helper lemmas: the trace-building loop and `createGantt` -/

theorem buildTraces_ok (rows : List Row) (scd : List (String × String)) :
    ∀ (l : List Row) (ts : List Trace), buildTraces rows scd l = .ok ts →
      ts.length = 2 * l.length ∧ ∀ t ∈ ts, isBarTrace t = true := by
  intro l
  induction l with
  | nil =>
    intro ts h
    simp only [buildTraces] at h
    cases h
    exact ⟨rfl, by simp⟩
  | cons r rs ih =>
    intro ts h
    simp only [buildTraces] at h
    split at h
    · cases h
    · rename_i c hl
      cases hb : buildTraces rows scd rs with
      | error e => rw [hb] at h; cases h
      | ok ts' =>
        rw [hb] at h
        simp only [Except.map] at h
        cases h
        obtain ⟨h1, h2⟩ := ih ts' hb
        refine ⟨by simp [h1]; ring, ?_⟩
        intro t ht
        rcases List.mem_cons.mp ht with rfl | ht
        · rfl
        rcases List.mem_cons.mp ht with rfl | ht
        · rfl
        · exact h2 t ht

theorem buildTraces_pairs (rows : List Row) (scd : List (String × String)) :
    ∀ (l : List Row) (ts : List Trace), buildTraces rows scd l = .ok ts →
      ∀ (i : Nat) (r : Row), l.get? i = some r →
        ∃ c, lookupStage scd r.stage = some c ∧
          ts.get? (2 * i) = some (mainBar rows r c) ∧
          ts.get? (2 * i + 1) = some (overlayBar rows r c) := by
  intro l
  induction l with
  | nil => intro ts _ i r hi; cases hi
  | cons r0 rs ih =>
    intro ts h i r hi
    simp only [buildTraces] at h
    split at h
    · cases h
    · rename_i c0 hl0
      cases hb : buildTraces rows scd rs with
      | error e => rw [hb] at h; cases h
      | ok ts' =>
        rw [hb] at h
        simp only [Except.map] at h
        cases h
        cases i with
        | zero =>
          simp only [List.get?] at hi
          cases hi
          exact ⟨c0, hl0, rfl, rfl⟩
        | succ n =>
          simp only [List.get?] at hi
          obtain ⟨c, hc, h1, h2⟩ := ih ts' hb n r hi
          refine ⟨c, hc, ?_, ?_⟩
          · have he : 2 * (n + 1) = (2 * n + 1) + 1 := by ring
            rw [he, List.get?_cons_succ, List.get?_cons_succ]
            exact h1
          · have he : 2 * (n + 1) + 1 = ((2 * n + 1) + 1) + 1 := by ring
            rw [he, List.get?_cons_succ, List.get?_cons_succ]
            exact h2

theorem buildTraces_err (rows : List Row) (scd : List (String × String)) :
    ∀ l : List Row, (∃ r ∈ l, lookupStage scd r.stage = none) →
      ∃ k, buildTraces rows scd l = .error (.keyError k) := by
  intro l
  induction l with
  | nil => rintro ⟨r, hr, _⟩; cases hr
  | cons r0 rs ih =>
    rintro ⟨r, hr, hl⟩
    cases hl0 : lookupStage scd r0.stage with
    | none => exact ⟨r0.stage, by simp [buildTraces, hl0]⟩
    | some c =>
      have hrs : ∃ q ∈ rs, lookupStage scd q.stage = none := by
        rcases List.mem_cons.mp hr with rfl | hmem
        · rw [hl0] at hl; cases hl
        · exact ⟨r, hmem, hl⟩
      obtain ⟨k, hk⟩ := ih hrs
      exact ⟨k, by simp [buildTraces, hl0, hk, Except.map]⟩

theorem createGantt_ok {rows : List Row} {out : GanttOutput}
    (h : createGantt rows = .ok out) :
    ∃ t rest barTs, titleCol rows = t :: rest ∧
      buildTraces rows (stageColorDict rows) rows = .ok barTs ∧
      out.figure.traces = barTs ++ legendTraces (legendOrderDict rows) ∧
      out.figure.title = t ∧
      out.figure.xTickvals = tickvals rows ∧
      out.figure.xTicktext = none := by
  simp only [createGantt] at h
  split at h
  · cases h
  · rename_i t rest ht
    cases hb : buildTraces rows (stageColorDict rows) rows with
    | error e => rw [hb] at h; cases h
    | ok barTs =>
      rw [hb] at h
      simp only [Except.map] at h
      cases h
      exact ⟨t, rest, barTs, ht, rfl, rfl, rfl, rfl, rfl⟩

/-! ## Claim theorems -/

/-- C9: the claim says the interactive shell handles the no-upload state
by prompting and a failed build by surfacing the error, without crashing
the session. In the code, the display step `img_bytes.getbuffer()` runs
unconditionally: with no upload `img_bytes` was never assigned and the
script raises `NameError`; with a failed build the exception from
`createGantt` propagates uncaught. Both failing runs are evaluated here. -/
theorem shell_crashes_without_upload :
    shellRun none = .error (.nameError "img_bytes") ∧
    shellRun (some noTitleRows) = .error (.ganttExc .indexError) := by
  constructor
  · rfl
  · decide

/-- C10: on every successful build the shell binds the returned pair
`(img_bytes, GanttChart)` to the single name `img_bytes`, so
`img_bytes.getbuffer()` is called on a tuple and raises `AttributeError`;
the display and download branches are never reached. -/
theorem shell_tuple_attribute_error (rows : List Row) (out : GanttOutput)
    (h : createGantt rows = .ok out) :
    shellRun (some rows) = .error (.attributeError "getbuffer") := by
  simp [shellRun, h, getbuffer]

/-- Witness for C10 at the demo table, whose build succeeds. -/
theorem shell_tuple_attribute_error_witness :
    shellRun (some demoRows) = .error (.attributeError "getbuffer") :=
  shell_tuple_attribute_error demoRows demoOut (by decide)

/-- C7: the chart title is the first non-null `Title` value whenever one
exists, and an entirely null `Title` column makes the build fail with an
`IndexError`. -/
theorem title_first_nonnull (rows : List Row) :
    (rows.filterMap (·.title) = [] → createGantt rows = .error .indexError) ∧
    (∀ out : GanttOutput, createGantt rows = .ok out →
      (rows.filterMap (·.title)).head? = some out.figure.title) := by
  constructor
  · intro he
    have ht : titleCol rows = [] := by
      rw [titleCol, uniqueFirst_nil_iff]
      exact he
    simp [createGantt, ht]
  · intro out h
    obtain ⟨t, rest, _, ht, _, _, htit, _, _⟩ := createGantt_ok h
    have hh := uniqueFirst_head (rows.filterMap (·.title))
    rw [titleCol] at ht
    rw [ht] at hh
    rw [htit, ← hh]
    rfl

/-- Witness for C7: the all-null title table fails with `IndexError`, and
the demo table's chart is titled by its first non-null `Title` value. -/
theorem title_first_nonnull_witness :
    createGantt noTitleRows = .error .indexError ∧
    (demoRows.filterMap (·.title)).head? = some demoOut.figure.title :=
  ⟨(title_first_nonnull noTitleRows).1 (by decide),
    (title_first_nonnull demoRows).2 demoOut (by decide)⟩

/-- C4: `DaysToStart` is the row's start date minus the global minimum
start date in whole days; it is never negative, and any row holding the
minimum start date has `DaysToStart = 0`. -/
theorem daysToStart_nonneg_min_zero (rows : List Row) (hne : rows ≠ []) :
    (∀ r ∈ rows, daysToStart rows r
        = (ord r.startDate : Int) - (ord (minStart rows) : Int)) ∧
    (∀ r ∈ rows, 0 ≤ daysToStart rows r) ∧
    (∃ r ∈ rows, minStart rows = r.startDate ∧ daysToStart rows r = 0) ∧
    (∀ r ∈ rows, (∀ q ∈ rows, ord r.startDate ≤ ord q.startDate) →
      daysToStart rows r = 0) := by
  obtain ⟨⟨m, hm, hmeq⟩, hle⟩ := minStart_spec rows hne
  refine ⟨fun r _ => rfl, ?_, ?_, ?_⟩
  · intro r hr
    have := hle r hr
    unfold daysToStart
    omega
  · refine ⟨m, hm, hmeq, ?_⟩
    unfold daysToStart
    rw [hmeq]
    omega
  · intro r hr hminimal
    have h1 := hle r hr
    have h2 := hminimal m hm
    rw [← hmeq] at h2
    unfold daysToStart
    omega

/-- Witness for C4 at the demo table: its single row holds the minimum
start date and gets `DaysToStart = 0`. -/
theorem daysToStart_nonneg_min_zero_witness :
    daysToStart demoRows demoRow = 0 :=
  (daysToStart_nonneg_min_zero demoRows (by decide)).2.2.2 demoRow
    (by decide) (by decide)

theorem map_startDate_set (rows : List Row) : ∀ (i : Nat) (r : Row) (c : Rat),
    rows.get? i = some r →
    (rows.set i { r with completionFrac := c }).map (·.startDate)
      = rows.map (·.startDate) := by
  induction rows with
  | nil => intro i r c h; cases h
  | cons r0 rs ih =>
    intro i r c h
    cases i with
    | zero =>
      simp only [List.get?] at h
      cases h
      simp [List.set]
    | succ n =>
      simp only [List.get?] at h
      simp [List.set, ih n r c h]

theorem minStart_set_frac (rows : List Row) (i : Nat) (r : Row) (c : Rat)
    (hi : rows.get? i = some r) :
    minStart (rows.set i { r with completionFrac := c }) = minStart rows := by
  unfold minStart
  rw [map_startDate_set rows i r c hi]

/-- C5: `CompletionDays = CompletionFrac × Duration` stays within
`[0, Duration]` for fractions in `[0, 1]` and a non-negative duration;
it is linear in the fraction (0 at 0, `Duration` at 1), and changing one
row's fraction leaves every other row and every row's `DaysToStart` and
`Duration` unchanged. -/
theorem completionDays_bounds_local (rows : List Row) (i : Nat) (c : Rat) (r : Row)
    (hi : rows.get? i = some r) :
    (0 ≤ r.completionFrac → r.completionFrac ≤ 1 → 0 ≤ duration r →
      0 ≤ completionDays r ∧ completionDays r ≤ (duration r : Rat)) ∧
    completionDays { r with completionFrac := c } = c * (duration r : Rat) ∧
    completionDays { r with completionFrac := 0 } = 0 ∧
    completionDays { r with completionFrac := 1 } = (duration r : Rat) ∧
    duration { r with completionFrac := c } = duration r ∧
    daysToStart (rows.set i { r with completionFrac := c })
        { r with completionFrac := c } = daysToStart rows r ∧
    (∀ j, j ≠ i → (rows.set i { r with completionFrac := c }).get? j
        = rows.get? j) ∧
    (∀ q : Row, daysToStart (rows.set i { r with completionFrac := c }) q
        = daysToStart rows q) := by
  have hmin := minStart_set_frac rows i r c hi
  refine ⟨?_, ?_, ?_, ?_, rfl, ?_, ?_, ?_⟩
  · intro h0 h1 hd
    have hd' : (0 : Rat) ≤ (duration r : Rat) := by exact_mod_cast hd
    constructor
    · exact mul_nonneg h0 hd'
    · calc completionDays r = r.completionFrac * (duration r : Rat) := rfl
        _ ≤ 1 * (duration r : Rat) := mul_le_mul_of_nonneg_right h1 hd'
        _ = (duration r : Rat) := one_mul _
  · rfl
  · simp [completionDays]
  · simp [completionDays, duration]
  · unfold daysToStart
    rw [hmin]
  · intro j hj
    exact List.get?_set_ne _ _ (Ne.symm hj)
  · intro q
    unfold daysToStart
    rw [hmin]

/-- Witness for C5 at the demo table: the half-complete row's overlay is
within bounds, and updating the fraction to 1 yields the full duration. -/
theorem completionDays_bounds_local_witness :
    (0 ≤ completionDays demoRow ∧ completionDays demoRow ≤ (duration demoRow : Rat)) ∧
    completionDays { demoRow with completionFrac := 1 } = (duration demoRow : Rat) :=
  ⟨(completionDays_bounds_local demoRows 0 1 demoRow (by decide)).1
      (by decide) (by decide) (by decide),
    (completionDays_bounds_local demoRows 0 1 demoRow (by decide)).2.2.2.1⟩

/-- C6 (amended): for every table whose `Title` column has a non-null
value, a row whose `Stage` has no entry in the stage-color map makes the
build fail with a `KeyError` and produce no output; with an all-null
`Title` column the earlier title extraction raises `IndexError` first. -/
theorem unmapped_stage_fails (rows : List Row)
    (ht : rows.filterMap (·.title) ≠ [])
    (hu : ∃ r ∈ rows, lookupStage (stageColorDict rows) r.stage = none) :
    isKeyErrorResult (createGantt rows) = true ∧
    (createGantt rows).toOption = none := by
  obtain ⟨k, hk⟩ := buildTraces_err rows (stageColorDict rows) rows hu
  have htc : titleCol rows ≠ [] := fun h => ht ((uniqueFirst_nil_iff _).mp h)
  cases hcase : titleCol rows with
  | nil => exact absurd hcase htc
  | cons t rest =>
    have : createGantt rows = .error (.keyError k) := by
      simp [createGantt, hcase, hk, Except.map]
    rw [this]
    exact ⟨rfl, rfl⟩

/-- Witness for C6 at a titled one-row table whose stage has no color. -/
theorem unmapped_stage_fails_witness :
    isKeyErrorResult (createGantt unmappedRows) = true ∧
    (createGantt unmappedRows).toOption = none :=
  unmapped_stage_fails unmappedRows (by decide)
    ⟨unmappedRow, by decide, by decide⟩

/-- Counterexample to C6 as stated: in a table that both contains an
unmapped stage and has an entirely null `Title` column, the build fails
with `IndexError` (raised at the earlier title extraction, gantt.py line
52), not with a lookup error. -/
theorem unmapped_stage_counterexample :
    noTitleUnmappedRow ∈ noTitleUnmappedRows ∧
    lookupStage (stageColorDict noTitleUnmappedRows) noTitleUnmappedRow.stage
      = none ∧
    createGantt noTitleUnmappedRows = .error .indexError ∧
    isKeyErrorResult (createGantt noTitleUnmappedRows) = false := by
  refine ⟨by decide, by decide, by decide, by decide⟩

/-- C2 (amended): on a successful build the figure holds exactly
`2 × rows` bar traces and the legend-only traces are exactly the entries
of the legend dict in first-encountered order, colored by the zipped
`StageColor`; their count is `min(#distinct LegendOrder, #distinct
StageColor)` — the zip truncates at the shorter list — and, with no
today-marker in the code, the total trace count is their sum. -/
theorem trace_counts (rows : List Row) (out : GanttOutput)
    (h : createGantt rows = .ok out) :
    (out.figure.traces.filter isBarTrace).length = 2 * rows.length ∧
    out.figure.traces.filter isLegendTrace
      = (legendOrderDict rows).map (fun p => Trace.scatterLegend p.2 p.1) ∧
    (out.figure.traces.filter isLegendTrace).length
      = min (legendOrderCol rows).length (stageColorCol rows).length ∧
    out.figure.traces.length
      = 2 * rows.length + (legendOrderDict rows).length := by
  obtain ⟨t, rest, barTs, ht, hb, htr, _, _, _⟩ := createGantt_ok h
  obtain ⟨hlen, hbar⟩ := buildTraces_ok rows (stageColorDict rows) rows barTs hb
  have hfb : barTs.filter isBarTrace = barTs := by
    rw [List.filter_eq_self]; exact hbar
  have hfl : barTs.filter isLegendTrace = [] := by
    rw [List.filter_eq_nil]
    intro t' ht'
    have hbt := hbar t' ht'
    cases t' with
    | bar a b c d e f g => simp [isLegendTrace]
    | scatterLegend a b => simp [isBarTrace] at hbt
  have hlegend1 : (legendTraces (legendOrderDict rows)).filter isLegendTrace
      = legendTraces (legendOrderDict rows) := by
    rw [List.filter_eq_self]
    intro t' ht'
    rcases List.mem_map.mp ht' with ⟨p, _, rfl⟩
    rfl
  have hlegend2 : (legendTraces (legendOrderDict rows)).filter isBarTrace = [] := by
    rw [List.filter_eq_nil]
    intro t' ht'
    rcases List.mem_map.mp ht' with ⟨p, _, rfl⟩
    simp [isBarTrace]
  rw [htr]
  refine ⟨?_, ?_, ?_, ?_⟩
  · rw [List.filter_append, hfb, hlegend2, List.append_nil, hlen]
  · rw [List.filter_append, hfl, hlegend1, List.nil_append]
    rfl
  · rw [List.filter_append, hfl, hlegend1, List.nil_append]
    show (legendTraces (legendOrderDict rows)).length = _
    rw [legendTraces, List.length_map, legendOrderDict, List.length_zip]
  · rw [List.length_append, hlen, legendTraces, List.length_map]

/-- Witness for C2 at the demo table: 2 bars for 1 row plus 1 legend
marker. -/
theorem trace_counts_witness :
    (demoOut.figure.traces.filter isBarTrace).length = 2 * demoRows.length ∧
    demoOut.figure.traces.length
      = 2 * demoRows.length + (legendOrderDict demoRows).length :=
  ⟨(trace_counts demoRows demoOut (by decide)).1,
    (trace_counts demoRows demoOut (by decide)).2.2.2⟩

/-- Counterexample to C2 as stated: `legendRows` has two distinct
`LegendOrder` values but a single distinct `StageColor`, so the zip
truncates and only one legend-only trace is emitted, not two. -/
theorem legend_truncation_counterexample :
    (createGantt legendRows).toOption.map
        (fun o => (o.figure.traces.filter isLegendTrace).length) = some 1 ∧
    (legendOrderCol legendRows).length = 2 ∧
    (1 : Nat) ≠ 2 := by decide

/-- C3 (amended): each row's two bar segments — the outer of length
`Duration`, the overlay of length `CompletionDays` at half opacity —
share a common anchor, which is `DaysToStart + 1` (the code adds 1 to
the claimed `DaysToStart` base, gantt.py lines 76 and 91). -/
theorem bars_anchored (rows : List Row) (out : GanttOutput) (i : Nat) (r : Row)
    (h : createGantt rows = .ok out) (hi : rows.get? i = some r) :
    ∃ c, out.figure.traces.get? (2 * i)
        = some (.bar ((duration r : Int) : Rat) r.task (daysToStart rows r + 1) c
            (some c) none false) ∧
      out.figure.traces.get? (2 * i + 1)
        = some (.bar (completionDays r) r.task (daysToStart rows r + 1) c none
            (some (1/2)) false) := by
  obtain ⟨t, rest, barTs, ht, hb, htr, _, _, _⟩ := createGantt_ok h
  obtain ⟨c, hc, h1, h2⟩ :=
    buildTraces_pairs rows (stageColorDict rows) rows barTs hb i r hi
  obtain ⟨hlen, _⟩ := buildTraces_ok rows (stageColorDict rows) rows barTs hb
  have hiL : i < rows.length := by
    by_contra hge
    rw [List.get?_eq_none.mpr (le_of_not_lt hge)] at hi
    cases hi
  have e1 : 2 * i < barTs.length := by omega
  have e2 : 2 * i + 1 < barTs.length := by omega
  rw [htr]
  refine ⟨c, ?_, ?_⟩
  · rw [List.get?_append e1]
    exact h1
  · rw [List.get?_append e2]
    exact h2

/-- Witness for C3 at the demo table. -/
theorem bars_anchored_witness :
    ∃ c, demoOut.figure.traces.get? 0
        = some (.bar ((duration demoRow : Int) : Rat) demoRow.task
            (daysToStart demoRows demoRow + 1) c (some c) none false) ∧
      demoOut.figure.traces.get? 1
        = some (.bar (completionDays demoRow) demoRow.task
            (daysToStart demoRows demoRow + 1) c none (some (1/2)) false) :=
  bars_anchored demoRows demoOut 0 demoRow (by decide) (by decide)

/-- Counterexample to C3 as stated: the demo row has `DaysToStart = 0`,
yet both of its bar segments are based at 1, not at `DaysToStart`. -/
theorem bars_anchored_counterexample :
    daysToStart demoRows demoRow = 0 ∧
    (createGantt demoRows).toOption.map
        (fun o => (o.figure.traces.get? 0).bind traceBase) = some (some 1) ∧
    (createGantt demoRows).toOption.map
        (fun o => (o.figure.traces.get? 1).bind traceBase) = some (some 1) ∧
    (some (some (1 : Int)) : Option (Option Int)) ≠ some (some 0) := by
  decide

theorem rowPairs_proj (rows : List Row)
    (hboth : ∀ r ∈ rows, r.stage.isSome = r.stageColor.isSome) :
    rows.filterMap (·.stage) = (rowPairs rows).map Prod.fst ∧
    rows.filterMap (·.stageColor) = (rowPairs rows).map Prod.snd := by
  induction rows with
  | nil => exact ⟨rfl, rfl⟩
  | cons r rs ih =>
    have hr := hboth r (List.mem_cons_self _ _)
    obtain ⟨ih1, ih2⟩ := ih (fun q hq => hboth q (List.mem_cons_of_mem _ hq))
    cases hs : r.stage with
    | none =>
      cases hc : r.stageColor with
      | none =>
        have hp : rowPair r = none := by simp [rowPair, hs, hc]
        simp only [rowPairs, List.filterMap_cons, hs, hc, hp] at ih1 ih2 ⊢
        exact ⟨ih1, ih2⟩
      | some c => rw [hs, hc] at hr; simp at hr
    | some s =>
      cases hc : r.stageColor with
      | none => rw [hs, hc] at hr; simp at hr
      | some c =>
        have hp : rowPair r = some (s, c) := by simp [rowPair, hs, hc]
        simp only [rowPairs, List.filterMap_cons, hs, hc, hp, List.map_cons] at ih1 ih2 ⊢
        exact ⟨by rw [ih1], by rw [ih2]⟩

/-- C1 (amended): the stage-color dictionary pairs the i-th distinct
`Stage` with the i-th distinct `StageColor` (both in first-occurrence
order). When the rows' stage/color pairing is one-to-one — each stage
one color, no color shared between stages, and stage and color null
together — the two deduplicated sequences stay aligned and every stage
maps to its first-encountered `StageColor`. (Under conflicting colors
the positional pairing can drift; see the counterexample.) -/
theorem stage_colors_zip_aligned (rows : List Row)
    (hboth : ∀ r ∈ rows, r.stage.isSome = r.stageColor.isSome)
    (hfun : ∀ p ∈ rowPairs rows, ∀ q ∈ rowPairs rows, p.1 = q.1 ↔ p.2 = q.2)
    (s : String) :
    List.lookup s (stageColorDict rows) = firstSeenStageColor rows s := by
  obtain ⟨h1, h2⟩ := rowPairs_proj rows hboth
  have hfst : ∀ a b, a ∈ rowPairs rows → b ∈ rowPairs rows → a.1 = b.1 → a = b := by
    intro a b ha hb he
    obtain ⟨a1, a2⟩ := a
    obtain ⟨b1, b2⟩ := b
    have := (hfun _ ha _ hb).mp he
    simp only at he this
    rw [he, this]
  have hsnd : ∀ a b, a ∈ rowPairs rows → b ∈ rowPairs rows → a.2 = b.2 → a = b := by
    intro a b ha hb he
    obtain ⟨a1, a2⟩ := a
    obtain ⟨b1, b2⟩ := b
    have := (hfun _ ha _ hb).mpr he
    simp only at he this
    rw [he, this]
  have e1 : stageCol rows = (uniqueFirst (rowPairs rows)).map Prod.fst := by
    rw [stageCol, h1, uniqueFirst_map Prod.fst _ hfst]
  have e2 : stageColorCol rows = (uniqueFirst (rowPairs rows)).map Prod.snd := by
    rw [stageColorCol, h2, uniqueFirst_map Prod.snd _ hsnd]
  have e3 : stageColorDict rows = uniqueFirst (rowPairs rows) := by
    rw [stageColorDict, e1, e2, zip_proj]
  rw [e3, lookup_uniqueFirst, lookup_eq_head_filter]
  rfl

/-- Witness for C1 at a table with a consistent, injective coloring. -/
theorem stage_colors_zip_aligned_witness :
    List.lookup "A" (stageColorDict alignedRows)
      = firstSeenStageColor alignedRows "A" ∧
    firstSeenStageColor alignedRows "A" = some "red" :=
  ⟨stage_colors_zip_aligned alignedRows (by decide) (by decide) "A", by decide⟩

/-- Counterexample to C1 as stated: in `conflictRows`, stage `B` appears
with conflicting colors (red in row 2, blue in row 3). Its
first-encountered color is red, yet the dict maps `B` to blue — because
red was already consumed by stage `A`'s slot of the positional zip —
and all four bars of stage-`B` rows are drawn blue, not red. -/
theorem stage_color_first_seen_counterexample :
    firstSeenStageColor conflictRows "B" = some "red" ∧
    List.lookup "B" (stageColorDict conflictRows) = some "blue" ∧
    (createGantt conflictRows).toOption.map
        (fun o => (o.figure.traces.filter isBarTrace).filterMap traceColor)
      = some ["red", "red", "blue", "blue", "blue", "blue"] ∧
    some ("blue" : String) ≠ some "red" := by decide

/-! ## Helper lemmas: calendar arithmetic for the tick positions -/

set_option maxHeartbeats 1000000 in
theorem daysBeforeYear_succ (y : Nat) :
    daysBeforeYear (y + 1) = daysBeforeYear y + (if isLeap y then 366 else 365) := by
  cases hl : isLeap y with
  | false =>
    simp only [isLeap, Bool.or_eq_false_iff, Bool.and_eq_false_iff,
      beq_eq_false_iff_ne, ne_eq, bne_eq_false_iff_eq] at hl
    simp only [Bool.false_eq_true, if_false]
    unfold daysBeforeYear
    omega
  | true =>
    simp only [isLeap, Bool.or_eq_true, Bool.and_eq_true, beq_iff_eq,
      bne_iff_ne, ne_eq] at hl
    simp only [if_true]
    unfold daysBeforeYear
    rcases hl with ⟨h4, h100⟩ | h400 <;> omega

theorem ord_idxDate_succ (k : Nat) :
    ord (idxDate (k + 1))
      = ord (idxDate k) + monthLen (isLeap (k / 12)) (k % 12 + 1) := by
  show daysBeforeYear ((k + 1) / 12)
      + daysBefore (isLeap ((k + 1) / 12)) ((k + 1) % 12 + 1) + (1 - 1)
    = daysBeforeYear (k / 12) + daysBefore (isLeap (k / 12)) (k % 12 + 1) + (1 - 1)
      + monthLen (isLeap (k / 12)) (k % 12 + 1)
  by_cases h : k % 12 = 11
  · have e1 : (k + 1) / 12 = k / 12 + 1 := by omega
    have e2 : (k + 1) % 12 = 0 := by omega
    rw [e1, e2, h, daysBeforeYear_succ]
    have hb1 : daysBefore (isLeap (k / 12 + 1)) (0 + 1) = 0 := rfl
    rw [hb1]
    cases isLeap (k / 12) <;> simp [daysBefore, monthLen]
  · have e1 : (k + 1) / 12 = k / 12 := by omega
    have e2 : (k + 1) % 12 = k % 12 + 1 := by omega
    rw [e1, e2]
    have hstep : daysBefore (isLeap (k / 12)) (k % 12 + 1 + 1)
        = daysBefore (isLeap (k / 12)) (k % 12 + 1)
          + monthLen (isLeap (k / 12)) (k % 12 + 1) := rfl
    rw [hstep]
    omega

theorem monthLen_ge (b : Bool) (m : Nat) (h1 : 1 ≤ m) (h2 : m ≤ 12) :
    28 ≤ monthLen b m := by
  interval_cases m <;> cases b <;> decide

theorem ord_idxDate_strictMono : StrictMono (fun k => ord (idxDate k)) := by
  apply strictMono_nat_of_lt_succ
  intro k
  have h := ord_idxDate_succ k
  have h2 := monthLen_ge (isLeap (k / 12)) (k % 12 + 1) (by omega) (by omega)
  show ord (idxDate k) < ord (idxDate (k + 1))
  omega

theorem idxDate_monthIdx (d : Date) (h1 : 1 ≤ d.month) (h2 : d.month ≤ 12)
    (hd : d.day = 1) : idxDate (monthIdx d) = d := by
  obtain ⟨y, m, day⟩ := d
  dsimp only at h1 h2 hd
  subst hd
  dsimp only [monthIdx, idxDate]
  have e1 : (12 * y + (m - 1)) / 12 = y := by omega
  have e2 : (12 * y + (m - 1)) % 12 + 1 = m := by omega
  rw [e1, e2]

theorem ord_eq_monthStart_add (d : Date) (h1 : 1 ≤ d.month) (h2 : d.month ≤ 12) :
    ord d = ord (idxDate (monthIdx d)) + (d.day - 1) := by
  have he : idxDate (monthIdx d) = ⟨d.year, d.month, 1⟩ := by
    have h0 : monthIdx d = monthIdx ⟨d.year, d.month, 1⟩ := rfl
    rw [h0]
    exact idxDate_monthIdx ⟨d.year, d.month, 1⟩ h1 h2 rfl
  rw [he]
  show daysBeforeYear d.year + daysBefore (isLeap d.year) d.month + (d.day - 1)
    = daysBeforeYear d.year + daysBefore (isLeap d.year) d.month + (1 - 1) + (d.day - 1)
  omega

theorem ord_lt_next_monthStart (e : Date) (hv : ValidDate e) :
    ord e < ord (idxDate (monthIdx e + 1)) := by
  obtain ⟨h1, h2, h3, h4⟩ := hv
  have hstep := ord_idxDate_succ (monthIdx e)
  have hm : monthIdx e % 12 + 1 = e.month := by unfold monthIdx; omega
  have hy : monthIdx e / 12 = e.year := by unfold monthIdx; omega
  rw [hm, hy] at hstep
  have hadd := ord_eq_monthStart_add e h1 h2
  omega

theorem monthIdx_le_of_ord_le {d e : Date} (hd : ValidDate d) (hday : d.day = 1)
    (he : ValidDate e) (h : ord d ≤ ord e) : monthIdx d ≤ monthIdx e := by
  by_contra hlt
  push_neg at hlt
  have h1 : monthIdx e + 1 ≤ monthIdx d := hlt
  have h2 : ord (idxDate (monthIdx e + 1)) ≤ ord (idxDate (monthIdx d)) :=
    ord_idxDate_strictMono.monotone h1
  have h3 : idxDate (monthIdx d) = d := idxDate_monthIdx d hd.1 hd.2.1 hday
  have h4 : ord e < ord (idxDate (monthIdx e + 1)) := ord_lt_next_monthStart e he
  rw [h3] at h2
  omega

theorem monthIdx_ge_of_ord_ge {s d : Date} (hs : ValidDate s) (hd : ValidDate d)
    (hday : d.day = 1) (h : ord s ≤ ord d) : monthIdx s ≤ monthIdx d := by
  by_contra hlt
  push_neg at hlt
  have h1 : monthIdx d + 1 ≤ monthIdx s := hlt
  have h2 : ord (idxDate (monthIdx d + 1)) ≤ ord (idxDate (monthIdx s)) :=
    ord_idxDate_strictMono.monotone h1
  have h3 : ord d < ord (idxDate (monthIdx d + 1)) := ord_lt_next_monthStart d hd
  have h4 : ord (idxDate (monthIdx s)) ≤ ord s := by
    have := ord_eq_monthStart_add s hs.1 hs.2.1
    omega
  omega

theorem validDate_idxDate (k : Nat) : ValidDate (idxDate k) := by
  refine ⟨?_, ?_, ?_, ?_⟩
  · show 1 ≤ k % 12 + 1
    omega
  · show k % 12 + 1 ≤ 12
    omega
  · exact le_refl 1
  · show 1 ≤ monthLen (isLeap (k / 12)) (k % 12 + 1)
    have := monthLen_ge (isLeap (k / 12)) (k % 12 + 1) (by omega) (by omega)
    omega

/-- C8 (amended): the x-axis tick values are exactly the day-offsets (from
the minimum `StartDate`) of the month-start dates lying between the
minimum `StartDate` and the maximum `EndDate`, each month boundary
contributing one tick (the list has no duplicates) — but no tick text is
set: the layout passes `tickvals` only (gantt.py line 126), so the ticks
are not labeled with month/year text. -/
theorem ticks_are_month_starts (rows : List Row) (out : GanttOutput)
    (h : createGantt rows = .ok out) (hne : rows ≠ [])
    (hv : ∀ r ∈ rows, ValidDate r.startDate ∧ ValidDate r.endDate) :
    out.figure.xTicktext = none ∧
    out.figure.xTickvals.Nodup ∧
    (∀ t : Int, t ∈ out.figure.xTickvals ↔
      ∃ d : Date, ValidDate d ∧ d.day = 1 ∧
        ord (minStart rows) ≤ ord d ∧ ord d ≤ ord (maxEnd rows) ∧
        t = (ord d : Int) - (ord (minStart rows) : Int)) := by
  obtain ⟨t0, rest, barTs, ht, hb, htr, htit, htv, htt⟩ := createGantt_ok h
  have hvs : ValidDate (minStart rows) := by
    obtain ⟨⟨m, hm, hmeq⟩, _⟩ := minStart_spec rows hne
    rw [hmeq]
    exact (hv m hm).1
  have hve : ValidDate (maxEnd rows) := by
    obtain ⟨m, hm, hmeq⟩ := maxEnd_mem rows hne
    rw [hmeq]
    exact (hv m hm).2
  refine ⟨htt, ?_, ?_⟩
  · rw [htv]
    unfold tickvals dateRangeMS
    have hp1 : ((List.range (monthIdx (maxEnd rows) + 1 - monthIdx (minStart rows))).map
        (fun i => idxDate (monthIdx (minStart rows) + i))).Pairwise
          (fun a b => ord a < ord b) := by
      rw [List.pairwise_map]
      exact (List.pairwise_lt_range _).imp
        (fun hab => ord_idxDate_strictMono
          (Nat.add_lt_add_left hab (monthIdx (minStart rows))))
    have hp2 : (((List.range (monthIdx (maxEnd rows) + 1 - monthIdx (minStart rows))).map
        (fun i => idxDate (monthIdx (minStart rows) + i))).filter
          (fun d => decide (ord (minStart rows) ≤ ord d)
            && decide (ord d ≤ ord (maxEnd rows)))).Pairwise
          (fun a b => ord a < ord b) :=
      List.Pairwise.sublist (List.filter_sublist _) hp1
    have hp3 : (((((List.range (monthIdx (maxEnd rows) + 1 - monthIdx (minStart rows))).map
        (fun i => idxDate (monthIdx (minStart rows) + i))).filter
          (fun d => decide (ord (minStart rows) ≤ ord d)
            && decide (ord d ≤ ord (maxEnd rows)))).map
          (fun d => (ord d : Int) - (ord (minStart rows) : Int)))).Pairwise (· < ·) := by
      rw [List.pairwise_map]
      refine hp2.imp ?_
      intro a b hab
      omega
    exact hp3.imp (fun hab => ne_of_lt hab)
  · intro t
    rw [htv]
    unfold tickvals dateRangeMS
    constructor
    · intro htm
      rcases List.mem_map.mp htm with ⟨d, hdmem, rfl⟩
      rcases List.mem_filter.mp hdmem with ⟨hdmem2, hcond⟩
      rcases List.mem_map.mp hdmem2 with ⟨i, _, rfl⟩
      have hc1 : ord (minStart rows)
          ≤ ord (idxDate (monthIdx (minStart rows) + i)) :=
        of_decide_eq_true ((Bool.and_eq_true _ _).mp hcond).1
      have hc2 : ord (idxDate (monthIdx (minStart rows) + i))
          ≤ ord (maxEnd rows) :=
        of_decide_eq_true ((Bool.and_eq_true _ _).mp hcond).2
      exact ⟨idxDate (monthIdx (minStart rows) + i), validDate_idxDate _, rfl,
        hc1, hc2, rfl⟩
    · rintro ⟨d, hvd, hday, hb1, hb2, rfl⟩
      have hle1 : monthIdx (minStart rows) ≤ monthIdx d :=
        monthIdx_ge_of_ord_ge hvs hvd hday hb1
      have hle2 : monthIdx d ≤ monthIdx (maxEnd rows) :=
        monthIdx_le_of_ord_le hvd hday hve hb2
      apply List.mem_map.mpr
      refine ⟨d, ?_, rfl⟩
      apply List.mem_filter.mpr
      refine ⟨?_, ?_⟩
      · apply List.mem_map.mpr
        refine ⟨monthIdx d - monthIdx (minStart rows), ?_, ?_⟩
        · exact List.mem_range.mpr (by omega)
        · have he : monthIdx (minStart rows)
              + (monthIdx d - monthIdx (minStart rows)) = monthIdx d := by omega
          rw [he]
          exact idxDate_monthIdx d hvd.1 hvd.2.1 hday
      · rw [Bool.and_eq_true]
        exact ⟨decide_eq_true hb1, decide_eq_true hb2⟩

/-- Witness for C8 at the demo table (valid dates, non-empty). -/
theorem ticks_are_month_starts_witness :
    demoOut.figure.xTicktext = none ∧ demoOut.figure.xTickvals.Nodup :=
  ⟨(ticks_are_month_starts demoRows demoOut (by decide) (by decide)
      (by decide)).1,
    (ticks_are_month_starts demoRows demoOut (by decide) (by decide)
      (by decide)).2.1⟩

/-- Counterexample to C8 as stated: `conflictRows` spans 2024-01-15 to
2024-03-10, so ticks exist at the month boundaries (offsets 17 and 46),
yet the figure's x-axis tick text is `none` — the layout never sets
`ticktext`, so the ticks are labeled with the raw day-offset numbers, not
month/year text. -/
theorem ticks_unlabeled_counterexample :
    (createGantt conflictRows).toOption.map (fun o => o.figure.xTickvals)
      = some [17, 46] ∧
    (createGantt conflictRows).toOption.map (fun o => o.figure.xTicktext)
      = some none := by decide

end Gantt
